import Mathlib

/-
Verification of the ctlmind repository: a shallow embedding of the
tool-calling orchestration loop (src/llm.py, `process_chat`), the action
registry (src/llm.py, `tool_map`), and the systemd executors
(src/systemd.py), together with theorems settling the specification
claims.

Modelling conventions:
- Python strings are Lean `String`; the substring test `'.' in s` for a
  single character is `s.data.contains '.'`.
- The opaque language-model collaborator (`llm_with_tools.ainvoke`) is a
  parameter `llm : Nat → List Message → Except String AIMessage`: given
  the index of the invocation and the current transcript it either
  returns an `AIMessage` or raises (`Except.error`).
- A registered executor (`tool.ainvoke`) is a parameter
  `Tool := String → Except String String`: given its (opaque, stringly
  modelled) arguments it returns the stringified output (`str(tool_output)`)
  or raises.  `Except.error` everywhere models a Python exception.
- Python list mutation is explicit state passing: `process_chat` threads
  the caller's list (`messages`, never written after the slice copy
  `messages[:]`) and the working list (`current_messages`, the copy that
  `extend` mutates) as separate values, mirroring that the slice creates
  a distinct object.
- The D-Bus / subprocess environments of src/systemd.py are parameters:
  a query function from the (normalized) unit name to its result or a
  raised exception.
-/

namespace Ctlmind

/-! ## Data model (langchain message types, src/llm.py) -/

/-- One entry of `AIMessage.tool_calls`: `{name, args, id}`. The `args`
dict is modelled opaquely as a string. -/
structure ToolCall where
  name : String
  args : String
  id : String
deriving DecidableEq, Repr

/-- An assistant message: textual content plus the list of requested
tool calls (empty for a terminal response). -/
structure AIMessage where
  content : String
  tool_calls : List ToolCall
deriving DecidableEq, Repr

/-- A `ToolMessage(content=..., tool_call_id=...)` as built in
src/llm.py lines 41-55. -/
structure ToolMessage where
  content : String
  tool_call_id : String
deriving DecidableEq, Repr

/-- A transcript entry: `HumanMessage`, `AIMessage` or `ToolMessage`. -/
inductive Message where
  | human (content : String)
  | ai (m : AIMessage)
  | tool (m : ToolMessage)
deriving DecidableEq, Repr

/-- A registered executor: arguments in, stringified output out, or a
raised exception (`Except.error`). -/
abbrev Tool := String → Except String String

/-- The opaque model-invocation collaborator: invocation index and
current transcript in, assistant response out, or a raised exception. -/
abbrev LLM := Nat → List Message → Except String AIMessage

/-! ## Action registry (src/llm.py line 9)

`tool_map = {tool.name: tool for tool in tools}` is a Python dict
comprehension: entries are inserted in list order and a repeated key
silently overwrites the stored value (the last entry wins). -/

/-- A tool as registered: its `.name` together with its executor. -/
structure NamedTool where
  name : String
  tool : Tool

/-- Python dict assignment `d[k] = v` on an association list: replaces
the value at the first occurrence of `k`, else appends a new entry. -/
def dictInsert : List (String × Tool) → String → Tool → List (String × Tool)
  | [], k, v => [(k, v)]
  | (k', v') :: rest, k, v =>
    if k' = k then (k', v) :: rest else (k', v') :: dictInsert rest k v

/-- Python dict lookup `d.get(k)` on an association list. -/
def lookupDict : List (String × Tool) → String → Option Tool
  | [], _ => none
  | (k', v) :: rest, k => if k' = k then some v else lookupDict rest k

/-- The dict comprehension `{tool.name: tool for tool in tools}`. -/
def tool_map (tools : List NamedTool) : List (String × Tool) :=
  tools.foldl (fun d t => dictInsert d t.name t.tool) []

/-! ## Orchestration loop (src/llm.py, `process_chat`) -/

/-- `max_iterations = 10  # Prevent infinite loops` (src/llm.py line 17). -/
def max_iterations : Nat := 10

/-- The dispatch loop over `ai_response.tool_calls` (src/llm.py lines
34-55): builds the list of `ToolMessage`s in request order.  A found
tool is invoked (`tool_to_call.ainvoke`); if it raises, the exception
propagates (there is no handler in the source loop).  An unknown name
yields the not-found `ToolMessage`.  Also returns the number of
executor invocations performed on the success path. -/
def runToolCalls (tm : String → Option Tool) : List ToolCall → Except String (List Message × Nat)
  | [] => Except.ok ([], 0)
  | tc :: rest =>
    match tm tc.name with
    | some t =>
      match t tc.args with
      | Except.ok out =>
        match runToolCalls tm rest with
        | Except.ok (ms, n) => Except.ok (Message.tool ⟨out, tc.id⟩ :: ms, n + 1)
        | Except.error e => Except.error e
      | Except.error e => Except.error e
    | none =>
      match runToolCalls tm rest with
      | Except.ok (ms, n) =>
        Except.ok (Message.tool ⟨"Tool \x27" ++ tc.name ++ "\x27 not found in available tools", tc.id⟩ :: ms, n)
      | Except.error e => Except.error e

/-- The observable outcome of one `process_chat` call: the returned
value or the propagated exception, the number of model invocations, the
number of executor invocations, the caller's `messages` list after the
call, and the final `current_messages` working list. -/
structure TurnOutcome where
  result : Except String AIMessage
  invocations : Nat
  toolExecs : Nat
  caller : List Message
  working : List Message

/-- The `while iteration < max_iterations` loop of `process_chat`
(src/llm.py lines 21-65), with `fuel = max_iterations - iteration` as
the structural recursion measure.  `last` is the `ai_response` variable
(initially `None`); on fuel exhaustion the source returns the last
response (after an `assert ai_response is not None`, modelled as an
`AssertionError` exception when `last` is `none`). -/
def process_chat_aux (llm : LLM) (tm : String → Option Tool) :
    Nat → Nat → Nat → List Message → List Message → Option AIMessage → TurnOutcome
  | 0, invocs, execs, caller, cur, last =>
    match last with
    | some r => ⟨Except.ok r, invocs, execs, caller, cur⟩
    | none => ⟨Except.error "AssertionError: ai_response should be defined after at least one iteration",
        invocs, execs, caller, cur⟩
  | fuel + 1, invocs, execs, caller, cur, _last =>
    match llm invocs cur with
    | Except.error e => ⟨Except.error e, invocs + 1, execs, caller, cur⟩
    | Except.ok r =>
      if r.tool_calls.isEmpty then
        ⟨Except.ok r, invocs + 1, execs, caller, cur⟩
      else
        match runToolCalls tm r.tool_calls with
        | Except.error e => ⟨Except.error e, invocs + 1, execs, caller, cur⟩
        | Except.ok (tms, n) =>
          process_chat_aux llm tm fuel (invocs + 1) (execs + n) caller
            (cur ++ Message.ai r :: tms) (some r)

/-- `process_chat(messages)` (src/llm.py lines 11-65).
`current_messages = messages[:]` makes the working list a value
independent of the caller's list, which is threaded unchanged. -/
def process_chat (llm : LLM) (tm : String → Option Tool) (messages : List Message) : TurnOutcome :=
  process_chat_aux llm tm max_iterations 0 0 messages messages none

/-! ## systemd executors (src/systemd.py) -/

/-- The bare-unit-name normalization repeated at the top of
`get_unit_status`, `get_journal_logs` and `get_unit_dependencies`:
`if '.' not in unit_name: unit_name = f"{unit_name}.service"`. -/
def systemdUnitName (unit_name : String) : String :=
  if unit_name.data.contains (Char.ofNat 46) then unit_name else unit_name ++ ".service"

/-- `get_unit_status` (src/systemd.py lines 25-36).  The D-Bus chain
(`_get_unit_properties` followed by the `ActiveState` property get) is
the environment `query`; `Except.error` is a raised exception, caught by
the executor itself and turned into a diagnostic string. -/
def get_unit_status (query : String → Except String String) (unit_name : String) : String :=
  let unit_name := systemdUnitName unit_name
  match query unit_name with
  | Except.ok active_state => active_state
  | Except.error e => "An error occurred while getting status for " ++ unit_name ++ ": " ++ e

/-- Outcome of `asyncio.create_subprocess_exec` + `communicate`. -/
structure ProcResult where
  returncode : Int
  stdout : String
  stderr : String

/-- A raised Python exception, distinguishing `FileNotFoundError`
(handled separately in `get_journal_logs`) from any other `Exception`. -/
inductive PyExc where
  | fileNotFound
  | other (msg : String)

/-- `get_journal_logs` (src/systemd.py lines 38-65).  The subprocess
execution is the environment `run`, taking the argv list. -/
def get_journal_logs (run : List String → Except PyExc ProcResult)
    (unit_name : String) (lines : Nat) : String :=
  let unit_name := systemdUnitName unit_name
  match run ["journalctl", "-u", unit_name, "-n", toString lines, "--no-pager"] with
  | Except.ok proc =>
    if proc.returncode ≠ 0 then
      "Error getting journal logs for " ++ unit_name ++ ": " ++ proc.stderr.trim
    else
      proc.stdout.trim
  | Except.error PyExc.fileNotFound =>
    "`journalctl` command not found. Please ensure it is installed and in the system\x27s PATH."
  | Except.error (PyExc.other e) =>
    "An unexpected error occurred while getting journal logs for " ++ unit_name ++ ": " ++ e

/-- The `.value` of the six dependency properties fetched over D-Bus in
`get_unit_dependencies` (src/systemd.py lines 76-81). -/
structure UnitProps where
  requires : List String
  wants : List String
  after : List String
  before : List String
  required_by : List String
  wanted_by : List String

/-- The `"dependencies"` sub-dict of `get_unit_dependencies`:
`list(p.value) if p.value else []` for each property. -/
structure DependencyLists where
  requires : List String
  wants : List String
  after : List String
  before : List String
  required_by : List String
  wanted_by : List String

/-- The `"summary"` sub-dict of `get_unit_dependencies`
(src/systemd.py lines 94-100). -/
structure DependencySummary where
  total_dependencies : Nat
  total_dependents : Nat
  has_hard_dependencies : Bool
  has_soft_dependencies : Bool
  has_dependents : Bool

/-- The structured `dependency_data` dict returned on success. -/
structure DependencyData where
  unit_name : String
  dependencies : DependencyLists
  summary : DependencySummary

/-- The return value of `get_unit_dependencies`: the structured data, or
the error dict `{unit_name, error, dependencies: None}` built in the
`except` branch. -/
inductive DepResult where
  | ok (d : DependencyData)
  | err (unit_name : String) (error : String)

/-- Python truthiness on a list: `list(v) if v else []` (the identity on
lists, written as in the source). -/
def pyListOr (v : List String) : List String :=
  if v.isEmpty then [] else v

/-- `get_unit_dependencies` (src/systemd.py lines 67-111).  The D-Bus
property fetches are the environment `query`, returning the six
property values for the (normalized) unit name or raising. -/
def get_unit_dependencies (query : String → Except String UnitProps) (unit_name : String) : DepResult :=
  let unit_name := systemdUnitName unit_name
  match query unit_name with
  | Except.ok p =>
    DepResult.ok
      { unit_name := unit_name
        dependencies :=
          { requires := pyListOr p.requires
            wants := pyListOr p.wants
            after := pyListOr p.after
            before := pyListOr p.before
            required_by := pyListOr p.required_by
            wanted_by := pyListOr p.wanted_by }
        summary :=
          { total_dependencies := (pyListOr p.requires).length + (pyListOr p.wants).length
            total_dependents := (pyListOr p.required_by).length + (pyListOr p.wanted_by).length
            has_hard_dependencies := !p.requires.isEmpty
            has_soft_dependencies := !p.wants.isEmpty
            has_dependents := !p.required_by.isEmpty || !p.wanted_by.isEmpty } }
  | Except.error e => DepResult.err unit_name e

/-! ## Helper lemmas about the orchestration loop -/

/-- Unfolding the loop at zero remaining fuel. -/
theorem process_chat_aux_zero (llm : LLM) (tm : String → Option Tool)
    (invocs execs : Nat) (caller cur : List Message) (last : Option AIMessage) :
    process_chat_aux llm tm 0 invocs execs caller cur last =
      match last with
      | some r => ⟨Except.ok r, invocs, execs, caller, cur⟩
      | none => ⟨Except.error "AssertionError: ai_response should be defined after at least one iteration",
          invocs, execs, caller, cur⟩ := rfl

/-- Unfolding one iteration of the loop. -/
theorem process_chat_aux_succ (llm : LLM) (tm : String → Option Tool)
    (fuel invocs execs : Nat) (caller cur : List Message) (last : Option AIMessage) :
    process_chat_aux llm tm (fuel + 1) invocs execs caller cur last =
      match llm invocs cur with
      | Except.error e => ⟨Except.error e, invocs + 1, execs, caller, cur⟩
      | Except.ok r =>
        if r.tool_calls.isEmpty then
          ⟨Except.ok r, invocs + 1, execs, caller, cur⟩
        else
          match runToolCalls tm r.tool_calls with
          | Except.error e => ⟨Except.error e, invocs + 1, execs, caller, cur⟩
          | Except.ok (tms, n) =>
            process_chat_aux llm tm fuel (invocs + 1) (execs + n) caller
              (cur ++ Message.ai r :: tms) (some r) := rfl

/-- The loop performs at most `fuel` further model invocations. -/
theorem process_chat_aux_invocations_le (llm : LLM) (tm : String → Option Tool) :
    ∀ fuel invocs execs caller cur last,
      (process_chat_aux llm tm fuel invocs execs caller cur last).invocations ≤ invocs + fuel := by
  intro fuel
  induction fuel with
  | zero =>
    intro invocs execs caller cur last
    cases last <;> simp [process_chat_aux]
  | succ f ih =>
    intro invocs execs caller cur last
    rw [process_chat_aux_succ]
    cases h : llm invocs cur with
    | error e => simp
    | ok r =>
      by_cases he : r.tool_calls.isEmpty
      · simp [he]
      · simp [he]
        cases hrt : runToolCalls tm r.tool_calls with
        | error e => simp
        | ok p =>
          obtain ⟨tms, n⟩ := p
          simp only []
          have := ih (invocs + 1) (execs + n) caller (cur ++ Message.ai r :: tms) (some r)
          omega

/-- The loop never writes the caller's `messages` list. -/
theorem process_chat_aux_caller_eq (llm : LLM) (tm : String → Option Tool) :
    ∀ fuel invocs execs caller cur last,
      (process_chat_aux llm tm fuel invocs execs caller cur last).caller = caller := by
  intro fuel
  induction fuel with
  | zero =>
    intro invocs execs caller cur last
    cases last <;> simp [process_chat_aux]
  | succ f ih =>
    intro invocs execs caller cur last
    rw [process_chat_aux_succ]
    cases h : llm invocs cur with
    | error e => simp
    | ok r =>
      by_cases he : r.tool_calls.isEmpty
      · simp [he]
      · simp [he]
        cases hrt : runToolCalls tm r.tool_calls with
        | error e => simp
        | ok p =>
          obtain ⟨tms, n⟩ := p
          exact ih (invocs + 1) (execs + n) caller (cur ++ Message.ai r :: tms) (some r)

/-- Dispatching a round whose executors all return normally: the round
raises nothing, produces one `ToolMessage` per request in request
order, threads each request's `id`, and the payload is the found
executor's output, or the not-found diagnostic for an unknown name. -/
theorem runToolCalls_spec (tm : String → Option Tool) :
    ∀ calls : List ToolCall,
      (∀ c ∈ calls, ∀ t, tm c.name = some t → ∃ out, t c.args = Except.ok out) →
      ∃ ms n, runToolCalls tm calls = Except.ok (ms, n) ∧
        ms.length = calls.length ∧
        ∀ p ∈ ms.zip calls,
          ∃ content, p.1 = Message.tool ⟨content, p.2.id⟩ ∧
            ((tm p.2.name = none ∧
                content = "Tool \x27" ++ p.2.name ++ "\x27 not found in available tools") ∨
             (∃ t, tm p.2.name = some t ∧ t p.2.args = Except.ok content)) := by
  intro calls
  induction calls with
  | nil => intro _; exact ⟨[], 0, rfl, rfl, by simp⟩
  | cons c rest ih =>
    intro H
    obtain ⟨ms, n, hrun, hlen, hzip⟩ := ih (fun d hd t ht => H d (List.mem_cons_of_mem _ hd) t ht)
    cases hname : tm c.name with
    | none =>
      refine ⟨Message.tool ⟨"Tool \x27" ++ c.name ++ "\x27 not found in available tools", c.id⟩ :: ms,
        n, ?_, by simp [hlen], ?_⟩
      · simp [runToolCalls, hname, hrun]
      · intro p hp
        rw [List.zip_cons_cons] at hp
        rcases List.mem_cons.mp hp with h | h
        · subst h
          exact ⟨_, rfl, Or.inl ⟨hname, rfl⟩⟩
        · exact hzip p h
    | some t =>
      obtain ⟨out, hout⟩ := H c (List.mem_cons_self c rest) t hname
      refine ⟨Message.tool ⟨out, c.id⟩ :: ms, n + 1, ?_, by simp [hlen], ?_⟩
      · simp [runToolCalls, hname, hout, hrun]
      · intro p hp
        rw [List.zip_cons_cons] at hp
        rcases List.mem_cons.mp hp with h | h
        · subst h
          exact ⟨out, rfl, Or.inr ⟨t, hname, hout⟩⟩
        · exact hzip p h

/-- If every model response carries at least one requested action and
every registered executor returns normally, a loop entered with
positive fuel spends all of it: it performs exactly `fuel` further
invocations and returns the response obtained from the last one. -/
theorem process_chat_aux_no_fixpoint (llm : LLM) (tm : String → Option Tool)
    (Hllm : ∀ k w, ∃ r, llm k w = Except.ok r ∧ r.tool_calls ≠ [])
    (Ht : ∀ name t, tm name = some t → ∀ args, ∃ out, t args = Except.ok out) :
    ∀ fuel invocs execs caller cur last, 0 < fuel →
      ∃ k r w, k + 1 = invocs + fuel ∧ llm k w = Except.ok r ∧ r.tool_calls ≠ [] ∧
        (process_chat_aux llm tm fuel invocs execs caller cur last).result = Except.ok r ∧
        (process_chat_aux llm tm fuel invocs execs caller cur last).invocations = invocs + fuel := by
  intro fuel
  induction fuel with
  | zero => intro invocs execs caller cur last h; exact absurd h (by omega)
  | succ f ih =>
    intro invocs execs caller cur last _
    obtain ⟨r, hr, hne⟩ := Hllm invocs cur
    obtain ⟨ms, n, hrt, -, -⟩ := runToolCalls_spec tm r.tool_calls
      (fun c _ t ht => Ht c.name t ht c.args)
    have hie : r.tool_calls.isEmpty = false := by
      cases hcl : r.tool_calls with
      | nil => exact absurd hcl hne
      | cons a l => rfl
    rw [process_chat_aux_succ]
    simp only [hr, hie, Bool.false_eq_true, if_false, hrt]
    cases f with
    | zero =>
      exact ⟨invocs, r, cur, by omega, hr, hne, rfl, rfl⟩
    | succ g =>
      obtain ⟨k, r', w, hk, hr', hne', hres, hinv⟩ :=
        ih (invocs + 1) (execs + n) caller (cur ++ Message.ai r :: ms) (some r) (by omega)
      exact ⟨k, r', w, by omega, hr', hne', hres, by rw [hinv]; omega⟩

/-- One non-terminal first round: the response and its `ToolMessage`s
are appended to the working transcript and the loop re-enters for the
second model invocation. -/
theorem process_chat_first_round (llm : LLM) (tm : String → Option Tool) (messages : List Message)
    (r : AIMessage) (ms : List Message) (n : Nat)
    (h1 : llm 0 messages = Except.ok r) (h2 : r.tool_calls ≠ [])
    (hrt : runToolCalls tm r.tool_calls = Except.ok (ms, n)) :
    process_chat llm tm messages =
      process_chat_aux llm tm 9 1 n messages (messages ++ Message.ai r :: ms) (some r) := by
  have hie : r.tool_calls.isEmpty = false := by
    cases hcl : r.tool_calls with
    | nil => exact absurd hcl h2
    | cons a l => rfl
  show process_chat_aux llm tm (9 + 1) 0 0 messages messages none = _
  rw [process_chat_aux_succ]
  simp only [h1, hie, Bool.false_eq_true, if_false, hrt]
  norm_num

/-! ## Claim theorems -/

/-- Claim C1: for every input transcript and every behavior of the model
collaborator and of the registered executors, `process_chat` performs at
most `max_iterations = 10` model invocations per turn (and, as a total
function of its inputs, terminates). -/
theorem C1_invocation_bound (llm : LLM) (tm : String → Option Tool) (messages : List Message) :
    (process_chat llm tm messages).invocations ≤ max_iterations := by
  simpa using process_chat_aux_invocations_le llm tm max_iterations 0 0 messages messages none

/-- Claim C2: if every model response requests at least one action and
every registered executor returns normally (rounds never reach a
fixpoint), `process_chat` returns after exactly 10 model invocations —
not 11 — and the returned value is the assistant message obtained from
the last (index 9) invocation, which still carries requested actions. -/
theorem C2_cap_returns_last_response (llm : LLM) (tm : String → Option Tool) (messages : List Message)
    (Hllm : ∀ k w, ∃ r, llm k w = Except.ok r ∧ r.tool_calls ≠ [])
    (Ht : ∀ name t, tm name = some t → ∀ args, ∃ out, t args = Except.ok out) :
    (process_chat llm tm messages).invocations = 10 ∧
      ∃ r w, llm 9 w = Except.ok r ∧ r.tool_calls ≠ [] ∧
        (process_chat llm tm messages).result = Except.ok r := by
  obtain ⟨k, r, w, hk, hr, hne, hres, hinv⟩ :=
    process_chat_aux_no_fixpoint llm tm Hllm Ht max_iterations 0 0 messages messages none
      (by simp [max_iterations])
  have hk9 : k = 9 := by simp [max_iterations] at hk; omega
  subst hk9
  refine ⟨?_, r, w, hr, hne, hres⟩
  rw [show process_chat llm tm messages =
    process_chat_aux llm tm max_iterations 0 0 messages messages none from rfl, hinv]
  simp [max_iterations]

/-- A model that always requests one action, for exercising the cap. -/
def loopLlmResponse : AIMessage := ⟨"still working", [⟨"probe", "x", "call-1"⟩]⟩

/-- The constant looping model collaborator. -/
def loopLlm : LLM := fun _ _ => Except.ok loopLlmResponse

/-- A registry with no tools registered. -/
def emptyRegistry : String → Option Tool := fun _ => none

/-- Witness for C2: the always-requesting model hits the cap at exactly
10 invocations and the last response is returned. -/
theorem C2_witness :
    (process_chat loopLlm emptyRegistry []).invocations = 10 ∧
      (process_chat loopLlm emptyRegistry []).result = Except.ok loopLlmResponse ∧
      loopLlmResponse.tool_calls ≠ [] := by
  obtain ⟨hinv, r, w, hr, hne, hres⟩ := C2_cap_returns_last_response loopLlm emptyRegistry []
    (fun k w => ⟨loopLlmResponse, rfl, by decide⟩)
    (fun name t ht args => by simp [emptyRegistry] at ht)
  have hr' : loopLlmResponse = r := by simpa [loopLlm] using hr
  subst hr'
  exact ⟨hinv, hres, hne⟩

/-- Claim C3: if the model's first response has no requested actions,
`process_chat` returns it unchanged after exactly one model invocation,
executing zero actions and leaving the working transcript untouched. -/
theorem C3_fixpoint_in_one_round (llm : LLM) (tm : String → Option Tool) (messages : List Message)
    (r : AIMessage) (h1 : llm 0 messages = Except.ok r) (h2 : r.tool_calls = []) :
    (process_chat llm tm messages).result = Except.ok r ∧
      (process_chat llm tm messages).invocations = 1 ∧
      (process_chat llm tm messages).toolExecs = 0 ∧
      (process_chat llm tm messages).working = messages := by
  have hie : r.tool_calls.isEmpty = true := by simp [h2]
  have h : process_chat llm tm messages = ⟨Except.ok r, 1, 0, messages, messages⟩ := by
    show process_chat_aux llm tm (9 + 1) 0 0 messages messages none = _
    rw [process_chat_aux_succ]
    simp only [h1, hie, if_true]
  rw [h]
  exact ⟨rfl, rfl, rfl, rfl⟩

/-- A model whose first response is terminal. -/
def terminalResponse : AIMessage := ⟨"all good", []⟩

/-- The constant terminal model collaborator. -/
def terminalLlm : LLM := fun _ _ => Except.ok terminalResponse

/-- Witness for C3 at a concrete terminal response. -/
theorem C3_witness :
    (process_chat terminalLlm emptyRegistry []).result = Except.ok terminalResponse ∧
      (process_chat terminalLlm emptyRegistry []).invocations = 1 ∧
      (process_chat terminalLlm emptyRegistry []).toolExecs = 0 ∧
      (process_chat terminalLlm emptyRegistry []).working = [] :=
  C3_fixpoint_in_one_round terminalLlm emptyRegistry [] terminalResponse rfl rfl

/-- Claim C7: a failure of the model-invocation collaborator is not
caught or retried — it propagates out of `process_chat` as the turn's
failure — and the caller's `messages` list is left unchanged (always,
since the loop works on a copy). -/
theorem C7_model_fault_propagates :
    (∀ (llm : LLM) (tm : String → Option Tool) (messages : List Message),
        (process_chat llm tm messages).caller = messages) ∧
      (∀ (llm : LLM) (tm : String → Option Tool) (messages : List Message) (e : String),
        llm 0 messages = Except.error e →
          (process_chat llm tm messages).result = Except.error e ∧
          (process_chat llm tm messages).invocations = 1) := by
  constructor
  · intro llm tm messages
    exact process_chat_aux_caller_eq llm tm max_iterations 0 0 messages messages none
  · intro llm tm messages e he
    have h : process_chat llm tm messages = ⟨Except.error e, 1, 0, messages, messages⟩ := by
      show process_chat_aux llm tm (9 + 1) 0 0 messages messages none = _
      rw [process_chat_aux_succ]
      simp only [he]
    rw [h]
    exact ⟨rfl, rfl⟩

/-- A model collaborator that always raises. -/
def failLlm : LLM := fun _ _ => Except.error "model unavailable"

/-- Witness for C7 at a concrete failing model collaborator. -/
theorem C7_witness :
    (process_chat failLlm emptyRegistry [Message.human "hi"]).caller = [Message.human "hi"] ∧
      (process_chat failLlm emptyRegistry [Message.human "hi"]).result =
        Except.error "model unavailable" ∧
      (process_chat failLlm emptyRegistry [Message.human "hi"]).invocations = 1 :=
  ⟨C7_model_fault_propagates.1 failLlm emptyRegistry [Message.human "hi"],
    (C7_model_fault_propagates.2 failLlm emptyRegistry [Message.human "hi"]
      "model unavailable" rfl).1,
    (C7_model_fault_propagates.2 failLlm emptyRegistry [Message.human "hi"]
      "model unavailable" rfl).2⟩

/-- Claim C4: for a response whose N requested actions all name
registered executors (which, like the repository's, return normally),
exactly N `ToolMessage`s are built, in the original request order, each
carrying the `tool_call_id` of its request, and they are appended to
the working transcript before the next model invocation. -/
theorem C4_one_result_per_request (llm : LLM) (tm : String → Option Tool)
    (messages : List Message) (r : AIMessage)
    (h1 : llm 0 messages = Except.ok r) (h2 : r.tool_calls ≠ [])
    (H : ∀ c ∈ r.tool_calls, ∃ t out, tm c.name = some t ∧ t c.args = Except.ok out) :
    ∃ ms n, runToolCalls tm r.tool_calls = Except.ok (ms, n) ∧
      ms.length = r.tool_calls.length ∧
      (∀ p ∈ ms.zip r.tool_calls, ∃ content, p.1 = Message.tool ⟨content, p.2.id⟩) ∧
      process_chat llm tm messages =
        process_chat_aux llm tm 9 1 n messages (messages ++ Message.ai r :: ms) (some r) := by
  obtain ⟨ms, n, hrt, hlen, hzip⟩ := runToolCalls_spec tm r.tool_calls
    (fun c hc t ht => by
      obtain ⟨t', out, ht', hout⟩ := H c hc
      rw [ht] at ht'
      injection ht' with h
      subst h
      exact ⟨out, hout⟩)
  exact ⟨ms, n, hrt, hlen, fun p hp => ((hzip p hp).imp fun content hc => hc.1),
    process_chat_first_round llm tm messages r ms n h1 h2 hrt⟩

/-- A model that requests two registered actions in its first response. -/
def twoCallLlm : LLM := fun _ _ =>
  Except.ok ⟨"", [⟨"alpha", "x", "id-a"⟩, ⟨"beta", "y", "id-b"⟩]⟩

/-- Two well-behaved executors. -/
def alphaTool : Tool := fun _ => Except.ok "out-a"

/-- Second well-behaved executor. -/
def betaTool : Tool := fun _ => Except.ok "out-b"

/-- A registry holding the two executors. -/
def twoToolRegistry : String → Option Tool := fun name =>
  if name = "alpha" then some alphaTool else if name = "beta" then some betaTool else none

/-- Witness for C4 with two registered actions. -/
theorem C4_witness :
    ∃ ms n, runToolCalls twoToolRegistry
        [ToolCall.mk "alpha" "x" "id-a", ToolCall.mk "beta" "y" "id-b"] = Except.ok (ms, n) ∧
      ms.length = 2 ∧
      (∀ p ∈ ms.zip [ToolCall.mk "alpha" "x" "id-a", ToolCall.mk "beta" "y" "id-b"],
        ∃ content, p.1 = Message.tool ⟨content, p.2.id⟩) ∧
      process_chat twoCallLlm twoToolRegistry [] =
        process_chat_aux twoCallLlm twoToolRegistry 9 1 n []
          ([] ++ Message.ai ⟨"", [⟨"alpha", "x", "id-a"⟩, ⟨"beta", "y", "id-b"⟩]⟩ :: ms)
          (some ⟨"", [⟨"alpha", "x", "id-a"⟩, ⟨"beta", "y", "id-b"⟩]⟩) := by
  have h := C4_one_result_per_request twoCallLlm twoToolRegistry []
    ⟨"", [⟨"alpha", "x", "id-a"⟩, ⟨"beta", "y", "id-b"⟩]⟩ rfl (by decide)
    (by
      intro c hc
      simp only [List.mem_cons, List.not_mem_nil, or_false] at hc
      rcases hc with rfl | rfl
      · exact ⟨alphaTool, "out-a", rfl, rfl⟩
      · exact ⟨betaTool, "out-b", rfl, rfl⟩)
  simpa using h

/-- Claim C5 (amended): the orchestration loop itself has no exception
handler around executor invocation — a registered executor that raises
propagates its exception out of `process_chat` as the turn's failure;
the per-action fault tolerance lives inside each registered executor,
which catches faults of the underlying query and returns a textual
diagnostic (shown here for `get_unit_status`) that the loop then wraps
into an ordinary `ToolMessage`. -/
theorem C5_executor_fault_amended :
    (∀ (q : String → Except String String) (u e : String),
        q (systemdUnitName u) = Except.error e →
          get_unit_status q u =
            "An error occurred while getting status for " ++ systemdUnitName u ++ ": " ++ e) ∧
      (∀ (llm : LLM) (tm : String → Option Tool) (messages : List Message)
          (r : AIMessage) (c : ToolCall) (rest : List ToolCall) (t : Tool) (e : String),
        llm 0 messages = Except.ok r → r.tool_calls = c :: rest →
        tm c.name = some t → t c.args = Except.error e →
          (process_chat llm tm messages).result = Except.error e) := by
  constructor
  · intro q u e hq
    simp [get_unit_status, hq]
  · intro llm tm messages r c rest t e h1 hcalls hname hargs
    have h : process_chat llm tm messages = ⟨Except.error e, 1, 0, messages, messages⟩ := by
      show process_chat_aux llm tm (9 + 1) 0 0 messages messages none = _
      rw [process_chat_aux_succ]
      simp only [h1, hcalls]
      simp [runToolCalls, hname, hargs]
    rw [h]

/-- An executor that raises. -/
def faultyTool : Tool := fun _ => Except.error "boom failure"

/-- A registry holding only the raising executor. -/
def faultyRegistry : String → Option Tool := fun name =>
  if name = "boom" then some faultyTool else none

/-- A model that requests the raising executor. -/
def boomLlm : LLM := fun _ _ => Except.ok ⟨"", [⟨"boom", "z", "call-0"⟩]⟩

/-- Counterexample for C5 as stated: with a registered executor that
raises, the exception is not caught inside the loop — `process_chat`
itself ends with the raised exception instead of appending a diagnostic
`ToolMessage` and continuing. -/
theorem C5_counterexample :
    (process_chat boomLlm faultyRegistry []).result = Except.error "boom failure" := by
  rfl

/-- A failing D-Bus environment for the status executor. -/
def downBus : String → Except String String := fun _ => Except.error "No such unit"

/-- Witness for the amended C5: the executor-level catch produces the
diagnostic string, and the raising executor's exception propagates out
of the loop. -/
theorem C5_witness :
    get_unit_status downBus "nginx" =
        "An error occurred while getting status for nginx.service: No such unit" ∧
      (process_chat boomLlm faultyRegistry []).result = Except.error "boom failure" := by
  constructor
  · have h := C5_executor_fault_amended.1 downBus "nginx" "No such unit" rfl
    simpa using h
  · exact C5_executor_fault_amended.2 boomLlm faultyRegistry []
      ⟨"", [⟨"boom", "z", "call-0"⟩]⟩ ⟨"boom", "z", "call-0"⟩ [] faultyTool "boom failure"
      rfl rfl rfl rfl

/-- Claim C6: a requested action whose name is not in the registry never
raises out of `process_chat`: the round still succeeds, every unknown
request yields a `ToolMessage` stating the tool is unavailable and
carrying the request's id, and the turn proceeds to the next model
invocation. -/
theorem C6_unknown_tool_recovered (llm : LLM) (tm : String → Option Tool)
    (messages : List Message) (r : AIMessage)
    (h1 : llm 0 messages = Except.ok r) (h2 : r.tool_calls ≠ [])
    (H : ∀ c ∈ r.tool_calls, ∀ t, tm c.name = some t → ∃ out, t c.args = Except.ok out) :
    ∃ ms n, runToolCalls tm r.tool_calls = Except.ok (ms, n) ∧
      ms.length = r.tool_calls.length ∧
      (∀ p ∈ ms.zip r.tool_calls, tm p.2.name = none →
        p.1 = Message.tool ⟨"Tool \x27" ++ p.2.name ++ "\x27 not found in available tools", p.2.id⟩) ∧
      process_chat llm tm messages =
        process_chat_aux llm tm 9 1 n messages (messages ++ Message.ai r :: ms) (some r) := by
  obtain ⟨ms, n, hrt, hlen, hzip⟩ := runToolCalls_spec tm r.tool_calls H
  refine ⟨ms, n, hrt, hlen, ?_, process_chat_first_round llm tm messages r ms n h1 h2 hrt⟩
  intro p hp hnone
  obtain ⟨content, hc, hcase⟩ := hzip p hp
  rcases hcase with ⟨-, hcontent⟩ | ⟨t, ht, -⟩
  · rw [hc, hcontent]
  · rw [hnone] at ht
    exact Option.noConfusion ht

/-- A model that requests one unregistered action. -/
def unknownCallLlm : LLM := fun _ _ => Except.ok ⟨"", [⟨"ghost", "x", "id-g"⟩]⟩

/-- Witness for C6 with an unregistered action name. -/
theorem C6_witness :
    ∃ ms n, runToolCalls emptyRegistry [ToolCall.mk "ghost" "x" "id-g"] = Except.ok (ms, n) ∧
      ms.length = 1 ∧
      (∀ p ∈ ms.zip [ToolCall.mk "ghost" "x" "id-g"], emptyRegistry p.2.name = none →
        p.1 = Message.tool ⟨"Tool \x27" ++ p.2.name ++ "\x27 not found in available tools", p.2.id⟩) ∧
      process_chat unknownCallLlm emptyRegistry [] =
        process_chat_aux unknownCallLlm emptyRegistry 9 1 n []
          ([] ++ Message.ai ⟨"", [⟨"ghost", "x", "id-g"⟩]⟩ :: ms)
          (some ⟨"", [⟨"ghost", "x", "id-g"⟩]⟩) := by
  have h := C6_unknown_tool_recovered unknownCallLlm emptyRegistry []
    ⟨"", [⟨"ghost", "x", "id-g"⟩]⟩ rfl (by decide)
    (fun c hc t ht => by simp [emptyRegistry] at ht)
  simpa using h

/-! ## Registry duplicate handling (claim C8) -/

/-- Inserting a binding makes it the one found by lookup. -/
theorem lookup_dictInsert_self (m : List (String × Tool)) (k : String) (v : Tool) :
    lookupDict (dictInsert m k v) k = some v := by
  induction m with
  | nil => simp [dictInsert, lookupDict]
  | cons p rest ih =>
    obtain ⟨k', v'⟩ := p
    by_cases h : k' = k
    · simp [dictInsert, lookupDict, h]
    · simp [dictInsert, lookupDict, h, ih]

/-- Claim C8 (amended): building `tool_map` never aborts — it is a total
dict comprehension — and when two capabilities share a name the
last-registered entry silently wins: looking up the name of the final
tool in the list always returns that tool's executor, whatever came
before. -/
theorem C8_last_registration_wins (ts : List NamedTool) (t : NamedTool) :
    lookupDict (tool_map (ts ++ [t])) t.name = some t.tool := by
  have hfold : tool_map (ts ++ [t]) = dictInsert (tool_map ts) t.name t.tool := by
    simp [tool_map, List.foldl_append]
  rw [hfold]
  exact lookup_dictInsert_self (tool_map ts) t.name t.tool

/-- A first registration for the duplicated name. -/
def dupToolFirst : Tool := fun _ => Except.ok "first"

/-- A second registration for the duplicated name. -/
def dupToolSecond : Tool := fun _ => Except.ok "second"

/-- Counterexample for C8 as stated: registering two capabilities named
`"probe"` does not fail — `tool_map` builds and the duplicate is
silently resolved by keeping the second (last) entry, whose executor is
the one dispatch finds. -/
theorem C8_counterexample :
    (lookupDict (tool_map [⟨"probe", dupToolFirst⟩, ⟨"probe", dupToolSecond⟩]) "probe").map
        (fun t => t "") = some (Except.ok "second") := by
  rfl

/-! ## systemd executor claims -/

/-- The char list of `".service"` contains the dot. -/
theorem append_service_contains_dot (l : List Char) :
    (l ++ String.data ".service").contains (Char.ofNat 46) = true := by
  have h : Char.ofNat 46 ∈ l ++ String.data ".service" := by
    apply List.mem_append_right
    decide
  exact List.elem_iff.mpr h

/-- The normalization is idempotent: a normalized name has a dot. -/
theorem systemdUnitName_idem (u : String) :
    systemdUnitName (systemdUnitName u) = systemdUnitName u := by
  by_cases h : u.data.contains (Char.ofNat 46) = true
  · have hmem : Char.ofNat 46 ∈ u.data := by simpa using h
    simp [systemdUnitName, h, hmem]
  · have hd : (u ++ ".service").data = u.data ++ String.data ".service" := by
      cases u
      rfl
    have h' : (u ++ ".service").data.contains (Char.ofNat 46) = true := by
      rw [hd]
      exact append_service_contains_dot u.data
    have hnotmem : Char.ofNat 46 ∉ u.data := by simpa using h
    have hmem' : Char.ofNat 46 ∈ (u ++ ".service").data := List.elem_iff.mp h'
    simp [systemdUnitName, h, h', hnotmem, hmem']

/-- Claim C9: each unit-name-taking systemd executor normalizes bare
unit names before querying: its behavior on `u` coincides with its
behavior on `systemdUnitName u` for every environment, a bare name like
`"nginx"` becomes `"nginx.service"`, and a suffixed name like
`"nginx.socket"` passes through unchanged. -/
theorem C9_bare_unit_name_normalization :
    (∀ (q : String → Except String String) (u : String),
        get_unit_status q u = get_unit_status q (systemdUnitName u)) ∧
      (∀ (run : List String → Except PyExc ProcResult) (u : String) (lines : Nat),
        get_journal_logs run u lines = get_journal_logs run (systemdUnitName u) lines) ∧
      (∀ (q : String → Except String UnitProps) (u : String),
        get_unit_dependencies q u = get_unit_dependencies q (systemdUnitName u)) ∧
      systemdUnitName "nginx" = "nginx.service" ∧
      systemdUnitName "nginx.socket" = "nginx.socket" := by
  refine ⟨?_, ?_, ?_, by decide, by decide⟩
  · intro q u
    simp [get_unit_status, systemdUnitName_idem]
  · intro run u lines
    simp [get_journal_logs, systemdUnitName_idem]
  · intro q u
    simp [get_unit_dependencies, systemdUnitName_idem]

/-- Claim C10: for a unit whose properties are `Requires = [a, b]`,
`Wants = []`, `RequiredBy = []`, `WantedBy = []`, the dependency lookup
returns structured data whose summary has `total_dependencies = 2`,
`has_hard_dependencies = true` and `has_dependents = false`. -/
theorem C10_dependency_summary (query : String → Except String UnitProps)
    (u a b : String) (afterL beforeL : List String)
    (hq : query (systemdUnitName u) =
      Except.ok ⟨[a, b], [], afterL, beforeL, [], []⟩) :
    ∃ d, get_unit_dependencies query u = DepResult.ok d ∧
      d.summary.total_dependencies = 2 ∧
      d.summary.has_hard_dependencies = true ∧
      d.summary.has_dependents = false := by
  refine ⟨⟨systemdUnitName u,
    ⟨pyListOr [a, b], pyListOr [], pyListOr afterL, pyListOr beforeL, pyListOr [], pyListOr []⟩,
    ⟨2, 0, true, false, false⟩⟩, ?_, rfl, rfl, rfl⟩
  simp [get_unit_dependencies, hq, pyListOr]

/-- A D-Bus environment exposing a unit with two hard dependencies. -/
def twoRequiresBus : String → Except String UnitProps := fun name =>
  if name = "app.service" then
    Except.ok ⟨["a.service", "b.service"], [], [], [], [], []⟩
  else
    Except.error "No such unit"

/-- Witness for C10 at a concrete unit. -/
theorem C10_witness :
    ∃ d, get_unit_dependencies twoRequiresBus "app" = DepResult.ok d ∧
      d.summary.total_dependencies = 2 ∧
      d.summary.has_hard_dependencies = true ∧
      d.summary.has_dependents = false :=
  C10_dependency_summary twoRequiresBus "app" "a.service" "b.service" [] [] rfl

end Ctlmind
